import Mathlib

/-!
Shallow embedding of the ship-tracker bot's core (domain services, DAO layer,
TTL cache, keyed locks, instance fan-out) and proofs of the specified
properties.  Definitions are translated from the Python sources:
  shiptracker/domain/ships_service.py        (per-guild war variant)
  shiptracker/shiptracker/domain/ships_service.py  (linked-ship variant)
  shiptracker/db/dao.py, shiptracker/shiptracker/db/dao.py
  shiptracker/domain/auth_service.py
  shiptracker/utils/cache.py, locks.py, updater.py
Python's sequential (single-threaded, cooperatively scheduled) execution is
modelled as explicit state passing; exceptions become `Except String`.
-/

namespace ShipTracker

/-- A dynamically-typed SQLite column value as it flows through the DAO:
NULL, TEXT or INTEGER. -/
inductive Val where
  | null
  | str (s : String)
  | int (n : Int)
deriving DecidableEq, Repr

/-- Python's str() applied to a stored value, as used by
`update_ship_field` when it records `str(new_value)` in the audit row. -/
def pyStr : Val → String
  | .null => "None"
  | .str s => s
  | .int n => toString n

/-- ASCII lowercase of one character, Python `str.lower` restricted to the
ASCII range the stored statuses use. -/
def pyLowerChar (c : Char) : Char :=
  if 'A' ≤ c ∧ c ≤ 'Z' then Char.ofNat (c.toNat + 32) else c

/-- Python `str.lower` (ASCII). -/
def pyLower (s : String) : String := ⟨s.data.map pyLowerChar⟩

/-- Python `str.strip` whitespace class (ASCII). -/
def pyIsSpace (c : Char) : Bool :=
  c = ' ' ∨ c = '\t' ∨ c = '\n' ∨ c = '\r' ∨ c = '\x0b' ∨ c = '\x0c'

/-- Python `str.strip()`: drop whitespace from both ends. -/
def pyStrip (s : String) : String :=
  ⟨((s.data.dropWhile pyIsSpace).reverse.dropWhile pyIsSpace).reverse⟩

/-- The decimal value a character contributes under Python `int()`: the ASCII
digits, plus — standing for the non-ASCII decimal digits (category Nd) that
`int()` equally accepts — the Arabic-Indic digit block U+0660-U+0669.  `none`
for every other character.  Exact on ASCII. -/
def pyDecimalVal (c : Char) : Option Nat :=
  if '0' ≤ c ∧ c ≤ '9' then some (c.toNat - 48)
  else if 0x660 ≤ c.toNat ∧ c.toNat ≤ 0x669 then some (c.toNat - 0x660)
  else none

/-- Python `str.isdigit` per character: true on decimal digits and also on
digit-typed characters that are NOT decimal digits — represented here by the
superscripts ¹ ² ³ — on which `int()` raises ValueError.  Exact on ASCII. -/
def pyIsDigit (c : Char) : Bool :=
  (pyDecimalVal c).isSome ∨ c = '¹' ∨ c = '²' ∨ c = '³'

/-- Python `int()` digit parsing: the value of a nonempty all-decimal digit
string, `none` (ValueError) otherwise. -/
def decDigitsVal (cs : List Char) : Option Nat :=
  if cs ≠ [] ∧ cs.all (fun c => (pyDecimalVal c).isSome) then
    some (cs.foldl (fun a c => a * 10 + (pyDecimalVal c).getD 0) 0)
  else none

/-- One row of the `ships` table.  The `type` column is spelled `type_` because
`type` is reserved in Lean; all other column names match the schema used by the
DAO (`ALLOWED_FIELDS` in db/dao.py).  `link_root_id` exists only in the
linked-ship variant's schema and is ignored by the per-guild variant. -/
structure Ship where
  id : Nat
  guild_id : Nat
  war_id : Nat
  type_ : Val
  name : Val
  status : Val
  damage : Val
  location : Val
  home_port : Val
  notes : Val
  keys : Val
  image_url : Val
  regiment : Val
  share_code : Val
  squad_lock_until : Val
  link_root_id : Option Nat
deriving DecidableEq, Repr

/-- The DAO's safe-list of mutable columns (ALLOWED_FIELDS /
ALLOWED_UPDATE_FIELDS, identical sets in both dao.py variants). -/
def ALLOWED_FIELDS : List String :=
  ["type", "name", "status", "damage", "location", "home_port", "notes",
   "keys", "image_url", "regiment", "share_code", "squad_lock_until"]

/-- Dynamic column read, `SELECT {field} FROM ships WHERE id=?`. -/
def Ship.getField (s : Ship) (f : String) : Val :=
  if f = "type" then s.type_
  else if f = "name" then s.name
  else if f = "status" then s.status
  else if f = "damage" then s.damage
  else if f = "location" then s.location
  else if f = "home_port" then s.home_port
  else if f = "notes" then s.notes
  else if f = "keys" then s.keys
  else if f = "image_url" then s.image_url
  else if f = "regiment" then s.regiment
  else if f = "share_code" then s.share_code
  else if f = "squad_lock_until" then s.squad_lock_until
  else .null

/-- Dynamic column write, `UPDATE ships SET {field}=? WHERE id=?`. -/
def Ship.setField (s : Ship) (f : String) (v : Val) : Ship :=
  if f = "type" then { s with type_ := v }
  else if f = "name" then { s with name := v }
  else if f = "status" then { s with status := v }
  else if f = "damage" then { s with damage := v }
  else if f = "location" then { s with location := v }
  else if f = "home_port" then { s with home_port := v }
  else if f = "notes" then { s with notes := v }
  else if f = "keys" then { s with keys := v }
  else if f = "image_url" then { s with image_url := v }
  else if f = "regiment" then { s with regiment := v }
  else if f = "share_code" then { s with share_code := v }
  else if f = "squad_lock_until" then { s with squad_lock_until := v }
  else s

/-- One row of the append-only `ship_updates` audit table. -/
structure UpdateRow where
  ship_id : Nat
  user_id : Nat
  field : String
  old_value : Val
  new_value : Val
deriving DecidableEq, Repr

/-- One row of `ship_instances`. -/
structure InstanceRow where
  ship_id : Nat
  guild_id : Nat
  channel_id : Nat
  message_id : Nat
  is_original : Bool
deriving DecidableEq, Repr

/-- The relational store consumed by the services: rows in insertion (rowid)
order, plus fresh-id counters standing for AUTOINCREMENT.  `wars` holds
(guild_id, war_id) pairs for the per-guild variant's `wars(guild_id, name)`
table keyed by the service's single fixed war name. -/
structure DB where
  wars : List (Nat × Nat)
  ships : List Ship
  updates : List UpdateRow
  instances : List InstanceRow
  ship_auth_users : List (Nat × Nat)
  guild_auth_users : List (Nat × Nat)
  guild_auth_roles : List (Nat × Nat)
  next_ship_id : Nat
  next_war_id : Nat
deriving DecidableEq, Repr

namespace DB

/-- `upsert_war`: INSERT OR IGNORE then SELECT id (dao.py). -/
def upsert_war (g : Nat) (st : DB) : Nat × DB :=
  match st.wars.find? (fun w => w.1 = g) with
  | some w => (w.2, st)
  | none =>
      (st.next_war_id,
       { st with wars := st.wars ++ [(g, st.next_war_id)],
                 next_war_id := st.next_war_id + 1 })

/-- `get_ship`: SELECT * FROM ships WHERE guild_id=? AND war_id=? AND name=?. -/
def get_ship (g w : Nat) (n : String) (st : DB) : Option Ship :=
  st.ships.find? (fun s => s.guild_id = g ∧ s.war_id = w ∧ s.name = .str n)

/-- `get_ship_by_id`: SELECT * FROM ships WHERE id=?. -/
def get_ship_by_id (sid : Nat) (st : DB) : Option Ship :=
  st.ships.find? (fun s => s.id = sid)

/-- `add_ship(guild_id, war_id, name=name)` with no further defaults: every
other column takes its schema default (NULL here; the exact default value of
unsupplied columns is irrelevant to the proved properties). -/
def add_ship_named (g w : Nat) (n : String) (st : DB) : Nat × DB :=
  let ship : Ship :=
    { id := st.next_ship_id, guild_id := g, war_id := w,
      type_ := .null, name := .str n, status := .null, damage := .null,
      location := .null, home_port := .null, notes := .null, keys := .null,
      image_url := .null, regiment := .null, share_code := .null,
      squad_lock_until := .null, link_root_id := none }
  (st.next_ship_id,
   { st with ships := st.ships ++ [ship], next_ship_id := st.next_ship_id + 1 })

/-- `update_ship_field`: field safe-list check, read old value, UPDATE the row,
INSERT one audit row recording old and `str(new_value)` (dao.py). -/
def update_ship_field (sid uid : Nat) (f : String) (v : Val) (st : DB) :
    Except String DB :=
  if f ∉ ALLOWED_FIELDS then .error "Invalid field" else
  let old := match st.get_ship_by_id sid with
             | some s => s.getField f
             | none => .null
  .ok { st with
        ships := st.ships.map (fun s => if s.id = sid then s.setField f v else s),
        updates := st.updates ++ [⟨sid, uid, f, old, .str (pyStr v)⟩] }

/-- `get_instance_guild_ids`: SELECT DISTINCT guild_id FROM ship_instances
WHERE ship_id=?. -/
def get_instance_guild_ids (sid : Nat) (st : DB) : List Nat :=
  ((st.instances.filter (fun i => i.ship_id = sid)).map (fun i => i.guild_id)).dedup

/-- `is_user_authorized_for_ship`: SELECT 1 FROM ship_auth_users
WHERE ship_id=? AND user_id=?. -/
def is_user_authorized_for_ship (sid uid : Nat) (st : DB) : Bool :=
  st.ship_auth_users.any (fun p => p.1 = sid ∧ p.2 = uid)

/-- `is_user_in_guild_auth_users_many`: SELECT 1 FROM guild_auth_users
WHERE user_id=? AND guild_id IN (...) LIMIT 1 (empty guild list short-circuits
to False). -/
def is_user_in_guild_auth_users_many (gids : List Nat) (uid : Nat) (st : DB) :
    Bool :=
  st.guild_auth_users.any (fun p => p.2 = uid ∧ p.1 ∈ gids)

/-- The authorized-role set of one guild, as `get_guild_auth_roles_many [g]`
hands it to the auth service (`roles_map.get(guild_id, set())`). -/
def auth_roles_of (g : Nat) (st : DB) : List Nat :=
  (st.guild_auth_roles.filter (fun p => p.1 = g)).map (fun p => p.2)

/-- The root-or-sibling id list of a linked ship, `get_linked_ship_ids`
(shiptracker/shiptracker/db/dao.py): COALESCE(link_root_id, id) of the ship,
then SELECT id FROM ships WHERE id=root OR link_root_id=root, in rowid
order; empty when the ship id does not exist. -/
def get_linked_ship_ids (sid : Nat) (st : DB) : List Nat :=
  match st.get_ship_by_id sid with
  | none => []
  | some s =>
      let root := s.link_root_id.getD s.id
      (st.ships.filter (fun t => t.id = root ∨ t.link_root_id = some root)).map
        (fun t => t.id)

/-- One pass of `update_field_linked`'s per-member loop: for each member id,
INSERT an audit row whose old_value is the scalar subselect of the current
column (read before the update), then UPDATE the ship row. -/
def apply_linked_once (uid : Nat) (f : String) (v : Val) (ids : List Nat)
    (st : DB) : DB :=
  ids.foldl (fun acc sid =>
    let old := match acc.get_ship_by_id sid with
               | some s => s.getField f
               | none => .null
    { acc with
      updates := acc.updates ++ [⟨sid, uid, f, old, v⟩],
      ships := acc.ships.map (fun s => if s.id = sid then s.setField f v else s) })
    st

/-- `update_field_linked` (shiptracker/shiptracker/db/dao.py lines 312-351):
safe-list check, resolve the member ids, then run the history+update loop —
and run it a second time, because the source contains a verbatim duplicate of
the loop inside a nested `async with self.connect()` block. -/
def update_field_linked (sid uid : Nat) (f : String) (v : Val) (st : DB) :
    Except String DB :=
  if f ∉ ALLOWED_FIELDS then
    .error ("Field '" ++ f ++ "' is not allowed for linked updates.")
  else
    let ids0 := get_linked_ship_ids sid st
    let ids := if ids0 = [] then [sid] else ids0
    .ok (apply_linked_once uid f v ids (apply_linked_once uid f v ids st))

end DB

/-- Python `int(str)`: optional surrounding whitespace, optional sign, then a
nonempty run of decimal digits; `none` models the ValueError raised on
anything else (including digit-typed non-decimal characters such as "²"). -/
def pyIntParse (s : String) : Option Int :=
  match (pyStrip s).data with
  | [] => none
  | '-' :: rest => (decDigitsVal rest).map (fun n => -(n : Int))
  | '+' :: rest => (decDigitsVal rest).map (fun n => (n : Int))
  | cs => (decDigitsVal cs).map (fun n => (n : Int))

/-- `ship.get("status") or ""` as consumed by `.lower()`.  The services only
ever store TEXT or NULL in `status`, so the INTEGER case (where Python's
`.lower()` would raise AttributeError) is mapped to the empty string and never
reached by the proved claims. -/
def Val.statusText : Val → String
  | .null => ""
  | .str s => s
  | .int _ => ""

/-- The read-only violation raised by `_ensure_mutable` in both variants. -/
def readOnlyMsg : String := "This ship is marked Dead and is read-only."

namespace ShipSvc

/-- Python attribute access on a missing ship: `get_ship_by_id` returned None
and `_ensure_mutable(None)` would raise AttributeError. -/
def fetchShip (sid : Nat) (st : DB) : Except String Ship :=
  match st.get_ship_by_id sid with
  | some s => .ok s
  | none => .error "AttributeError"

/-- `_ensure_mutable` (shiptracker/domain/ships_service.py):
`(ship.get("status") or "").lower() == "dead"` raises the read-only error. -/
def ensure_mutable (s : Ship) : Except String Unit :=
  if pyLower s.status.statusText = "dead" then .error readOnlyMsg else .ok ()

/-- `_ensure_mutable` of the linked-ship variant
(shiptracker/shiptracker/domain/ships_service.py): additionally strips
whitespace before lowercasing. -/
def ensure_mutable_linked (s : Ship) : Except String Unit :=
  if pyLower (pyStrip s.status.statusText) = "dead" then .error readOnlyMsg
  else .ok ()

/-- `(text or "").strip() or None`, the cleaning applied by `set_location` and
`set_notes` before storing. -/
def pyCleanOpt (w : Option String) : Val :=
  let t := pyStrip (w.getD "")
  if t = "" then .null else .str t

/-- The damage computation of `set_damage_clamped`:
`if damage_str and damage_str.strip().isdigit(): max(0, min(5, int(damage_str)))`
else 0 — where `int()` raises ValueError on digit-typed input that is not a
decimal number (such as "²"), so the computation is fallible. -/
def damageFromStr (ds : Option String) : Except String Int :=
  match ds with
  | none => .ok 0
  | some s =>
      if s ≠ "" ∧ (pyStrip s).data ≠ [] ∧ (pyStrip s).data.all pyIsDigit then
        match decDigitsVal (pyStrip s).data with
        | some n => .ok (max 0 (min 5 ((n : Nat) : Int)))
        | none => .error "ValueError"
      else .ok 0

/-- `_clamp_damage` (linked-ship variant): `int(v)` under try/except with
ValueError treated as 0, then clamp to 0-5. -/
def clamp_damage (v : Val) : Int :=
  match v with
  | .null => 0
  | .int n => max 0 (min 5 n)
  | .str s => match pyIntParse s with
              | some n => max 0 (min 5 n)
              | none => 0

/-- `ShipService.set_status`. -/
def set_status (sid uid : Nat) (status : String) (st : DB) : Except String DB := do
  let s ← fetchShip sid st
  ensure_mutable s
  st.update_ship_field sid uid "status" (.str status)

/-- `ShipService.set_location`. -/
def set_location (sid uid : Nat) (w : Option String) (st : DB) :
    Except String DB := do
  let s ← fetchShip sid st
  ensure_mutable s
  st.update_ship_field sid uid "location" (pyCleanOpt w)

/-- `ShipService.set_damage_clamped`: mutability check, then the guarded
`int()` computation (which may raise), then the write. -/
def set_damage_clamped (sid uid : Nat) (ds : Option String) (st : DB) :
    Except String DB := do
  let s ← fetchShip sid st
  ensure_mutable s
  let dmg ← damageFromStr ds
  st.update_ship_field sid uid "damage" (.int dmg)

/-- `ShipService.set_notes`. -/
def set_notes (sid uid : Nat) (notes : Option String) (st : DB) :
    Except String DB := do
  let s ← fetchShip sid st
  ensure_mutable s
  st.update_ship_field sid uid "notes" (pyCleanOpt notes)

/-- `ShipService.refresh_squad_lock`: new expiry is now + days * 24 * 3600. -/
def refresh_squad_lock (sid uid : Nat) (now : Nat) (days : Nat) (st : DB) :
    Except String (DB × Nat) := do
  let s ← fetchShip sid st
  ensure_mutable s
  let ts := now + days * 24 * 3600
  let st1 ← st.update_ship_field sid uid "squad_lock_until" (.int ts)
  .ok (st1, ts)

/-- `ShipService.finish_repairs`: location, damage 0, notes, status Parked. -/
def finish_repairs (sid uid : Nat) (parked_where notes : Option String)
    (st : DB) : Except String DB := do
  let s ← fetchShip sid st
  ensure_mutable s
  let st1 ← set_location sid uid parked_where st
  let st2 ← st1.update_ship_field sid uid "damage" (.int 0)
  let st3 ← set_notes sid uid notes st2
  set_status sid uid "Parked" st3

/-- `ShipService.start_repairs`. -/
def start_repairs (sid uid : Nat) (drydock_loc : Option String) (st : DB) :
    Except String DB := do
  let s ← fetchShip sid st
  ensure_mutable s
  let st1 ← set_location sid uid drydock_loc st
  set_status sid uid "Repairing" st1

/-- `ShipService.depart`. -/
def depart (sid uid : Nat) (st : DB) : Except String DB := do
  let s ← fetchShip sid st
  ensure_mutable s
  set_status sid uid "Deployed" st

/-- `ShipService.return_to_port`. -/
def return_to_port (sid uid : Nat) (w smokes addl_notes : Option String)
    (st : DB) : Except String DB := do
  let s ← fetchShip sid st
  ensure_mutable s
  let st1 ← set_location sid uid w st
  let st2 ← set_damage_clamped sid uid smokes st1
  let st3 ← set_notes sid uid addl_notes st2
  set_status sid uid "Parked" st3

/-- `ShipService.mark_dead`: the only status write with no mutability check. -/
def mark_dead (sid uid : Nat) (st : DB) : Except String DB :=
  st.update_ship_field sid uid "status" (.str "Dead")

/-- `ShipService.edit_fields_bulk` (per-guild variant: no sanitizing). -/
def edit_fields_bulk (sid uid : Nat) (fields : List (String × Val)) (st : DB) :
    Except String DB := do
  let s ← fetchShip sid st
  ensure_mutable s
  fields.foldlM (fun acc kv => acc.update_ship_field sid uid kv.1 kv.2) st

/-- `ShipService.gen_one_time_share_code`; the randomly drawn 8-character code
is passed in as a parameter. -/
def gen_one_time_share_code (sid uid : Nat) (code : String) (st : DB) :
    Except String (DB × String) := do
  let s ← fetchShip sid st
  ensure_mutable s
  let st1 ← st.update_ship_field sid uid "share_code" (.str code)
  .ok (st1, code)

/-- `ShipService.update_field` (per-guild variant): resolve the war, look the
ship up by name, update — with no `_ensure_mutable` call anywhere on the
path. -/
def update_field (g : Nat) (n : String) (uid : Nat) (f : String) (v : Val)
    (st : DB) : Except String (DB × Option Ship) :=
  let (wid, st1) := st.upsert_war g
  match st1.get_ship g wid n with
  | none => .error "Ship not found"
  | some ship => do
      let st2 ← st1.update_ship_field ship.id uid f v
      .ok (st2, st2.get_ship_by_id ship.id)

/-- `ShipService.consume_share_code`: SELECT the first ship holding the code
(fetchone), clear that ship's code, return its id; absent code returns None
with no write. -/
def consume_share_code (code : String) (st : DB) : Option Nat × DB :=
  match st.ships.find? (fun s => s.share_code = .str code) with
  | none => (none, st)
  | some s =>
      (some s.id,
       { st with ships := st.ships.map (fun t =>
           if t.id = s.id then { t with share_code := Val.null } else t) })

/-- `ShipService.get_or_create_ship` (per-guild variant): resolve the war,
return the existing row, else insert a row with the given name and re-read it
by id. -/
def get_or_create_ship (g : Nat) (n : String) (st : DB) : Option Ship × DB :=
  let (wid, st1) := st.upsert_war g
  match st1.get_ship g wid n with
  | some ship => (some ship, st1)
  | none =>
      let (sid, st2) := st1.add_ship_named g wid n
      (st2.get_ship_by_id sid, st2)

end ShipSvc

/-- `TTLCache` (utils/cache.py): a dict from key to (monotonic timestamp,
value), a ttl and a maxsize.  The store keeps Python-dict insertion order:
overwriting a present key keeps its position, a new key appends. -/
structure TTLCache (K V : Type) where
  ttl : Nat
  maxsize : Nat
  store : List (K × Nat × V)
deriving DecidableEq, Repr

namespace TTLCache

variable {K V : Type} [DecidableEq K]

/-- A fresh cache, `TTLCache(ttl_seconds, maxsize)`. -/
def empty (ttl maxsize : Nat) : TTLCache K V := ⟨ttl, maxsize, []⟩

/-- `self._store.get(key)`. -/
def lookup (c : TTLCache K V) (k : K) : Option (Nat × V) :=
  (c.store.find? (fun e => e.1 = k)).map (fun e => e.2)

/-- `self._store.pop(key, None)`. -/
def pop (c : TTLCache K V) (k : K) : TTLCache K V :=
  { c with store := c.store.eraseP (fun e => e.1 = k) }

/-- `get`: absent, or expired (popped), or the stored value. -/
def get (c : TTLCache K V) (k : K) (now : Nat) : Option V × TTLCache K V :=
  match c.lookup k with
  | none => (none, c)
  | some (ts, v) => if now - ts > c.ttl then (none, c.pop k) else (some v, c)

/-- `self._store[key] = (now, value)` with dict semantics. -/
def dictSet (store : List (K × Nat × V)) (k : K) (tv : Nat × V) :
    List (K × Nat × V) :=
  if store.any (fun e => e.1 = k) then
    store.map (fun e => if e.1 = k then (k, tv) else e)
  else store ++ [(k, tv)]

/-- `min(self._store.items(), key=lambda kv: kv[1][0])[0]` then pop: remove
the first entry carrying the minimal timestamp. -/
def evictOldest (store : List (K × Nat × V)) : List (K × Nat × V) :=
  match (store.map (fun e => e.2.1)).min? with
  | none => store
  | some m => store.eraseP (fun e => e.2.1 = m)

/-- `set`: evict the oldest entry when at (or above) capacity, then insert
with the current time. -/
def set (c : TTLCache K V) (k : K) (v : V) (now : Nat) : TTLCache K V :=
  let store := if c.store.length ≥ c.maxsize then evictOldest c.store
               else c.store
  { c with store := dictSet store k (now, v) }

/-- `invalidate`: unconditional removal. -/
def invalidate (c : TTLCache K V) (k : K) : TTLCache K V := c.pop k

/-- `clear`. -/
def clear (c : TTLCache K V) : TTLCache K V := { c with store := [] }

end TTLCache

/-- One cache API call, for stating the bounded-size invariant over arbitrary
operation sequences. -/
inductive CacheOp (K V : Type) where
  | get (k : K) (now : Nat)
  | set (k : K) (v : V) (now : Nat)
  | invalidate (k : K)
  | clear

/-- Apply one cache call to the store state. -/
def cacheStep {K V : Type} [DecidableEq K] (acc : TTLCache K V)
    (op : CacheOp K V) : TTLCache K V :=
  match op with
  | .get k now => (acc.get k now).2
  | .set k v now => acc.set k v now
  | .invalidate k => acc.invalidate k
  | .clear => acc.clear

/-- Run a sequence of cache calls. -/
def runCacheOps {K V : Type} [DecidableEq K] (ops : List (CacheOp K V))
    (c : TTLCache K V) : TTLCache K V :=
  ops.foldl cacheStep c

/-- `AuthService`'s three caches (domain/auth_service.py).  Role-id sets and
guild-id lists are modelled as lists with membership semantics. -/
structure AuthSvcState where
  member_roles_cache : TTLCache (Nat × Nat) (List Nat)
  auth_roles_map_cache : TTLCache Nat (List Nat)
  ship_instance_guilds_cache : TTLCache Nat (List Nat)
deriving Repr

namespace AuthSvc

/-- The live member-role directory (`bot.get_guild` + `guild.fetch_member`):
an oracle from (guild, user) to the resulting role-id set.  The code's
fallbacks (guild unknown, NotFound, Forbidden) are the oracle returning []. -/
def RoleOracle : Type := Nat → Nat → List Nat

/-- `AuthService._get_member_role_ids`. -/
def get_member_role_ids (oracle : RoleOracle) (g u now : Nat)
    (a : AuthSvcState) : List Nat × AuthSvcState :=
  match a.member_roles_cache.get (g, u) now with
  | (some v, c) => (v, { a with member_roles_cache := c })
  | (none, c) =>
      let rs := oracle g u
      (rs, { a with member_roles_cache := c.set (g, u) rs now })

/-- `AuthService._get_guild_auth_roles`. -/
def get_guild_auth_roles (g now : Nat) (a : AuthSvcState) (db : DB) :
    List Nat × AuthSvcState :=
  match a.auth_roles_map_cache.get g now with
  | (some v, c) => (v, { a with auth_roles_map_cache := c })
  | (none, c) =>
      let rs := db.auth_roles_of g
      (rs, { a with auth_roles_map_cache := c.set g rs now })

/-- `AuthService._get_ship_presence_guilds`: home guild unioned with the
distinct instance guilds. -/
def get_ship_presence_guilds (sid home now : Nat) (a : AuthSvcState) (db : DB) :
    List Nat × AuthSvcState :=
  match a.ship_instance_guilds_cache.get sid now with
  | (some v, c) => (v, { a with ship_instance_guilds_cache := c })
  | (none, c) =>
      let lst := (home :: db.get_instance_guild_ids sid).dedup
      (lst, { a with ship_instance_guilds_cache := c.set sid lst now })

/-- The step-3 loop of `user_is_authorized_for_ship_any_guild`: per presence
guild, skip when the guild's authorized-role set is empty, else intersect it
with the user's live role ids. -/
def role_loop (oracle : RoleOracle) (u now : Nat) (gids : List Nat)
    (a : AuthSvcState) (db : DB) : Bool × AuthSvcState :=
  match gids with
  | [] => (false, a)
  | g :: rest =>
      let (roles, a1) := get_guild_auth_roles g now a db
      if roles = [] then role_loop oracle u now rest a1 db
      else
        let (urs, a2) := get_member_role_ids oracle g u now a1
        if urs.any (fun r => r ∈ roles) then (true, a2)
        else role_loop oracle u now rest a2 db

/-- `AuthService.user_is_authorized_for_ship_any_guild`: resolve the ship in
the requesting guild's current war (deny when absent), then per-ship grant,
then guild-user allow-list over the presence set, then the role loop. -/
def user_is_authorized_for_ship_any_guild (oracle : RoleOracle) (g : Nat)
    (n : String) (u now : Nat) (a : AuthSvcState) (db : DB) :
    Bool × AuthSvcState × DB :=
  let (wid, db1) := db.upsert_war g
  match db1.get_ship g wid n with
  | none => (false, a, db1)
  | some ship =>
      if db1.is_user_authorized_for_ship ship.id u then (true, a, db1)
      else
        let (pg, a1) := get_ship_presence_guilds ship.id ship.guild_id now a db1
        if db1.is_user_in_guild_auth_users_many pg u then (true, a1, db1)
        else
          let (b, a2) := role_loop oracle u now pg a1 db1
          (b, a2, db1)

/-- The ship's presence set as a pure function of the store: home guild id of
the ship consed to its distinct instance guild ids (empty for a missing
ship id). -/
def presenceOf (db : DB) (sid : Nat) : List Nat :=
  match db.get_ship_by_id sid with
  | some ship => (ship.guild_id :: db.get_instance_guild_ids sid).dedup
  | none => []

/-- The cache-free authorization decision the resolver is claimed to compute:
deny when the ship is absent from the requesting guild's current war, else
allow iff a per-ship grant exists, or the user is in the authorized-user
allow-list of some presence guild, or some presence guild's authorized-role
set meets the user's live role ids there. -/
def auth_decision (oracle : RoleOracle) (g : Nat) (n : String) (u : Nat)
    (db : DB) : Bool :=
  let wdb := db.upsert_war g
  match (wdb.2).get_ship g wdb.1 n with
  | none => false
  | some ship =>
      let pg := (ship.guild_id :: (wdb.2).get_instance_guild_ids ship.id).dedup
      (wdb.2).is_user_authorized_for_ship ship.id u
      || pg.any (fun gid => (wdb.2).guild_auth_users.any
            (fun p => p.1 = gid ∧ p.2 = u))
      || pg.any (fun gid => (oracle gid u).any
            (fun r => r ∈ (wdb.2).auth_roles_of gid))

/-- Every member-role cache entry agrees with the live directory. -/
def MemberCacheOK (oracle : RoleOracle) (a : AuthSvcState) : Prop :=
  ∀ e ∈ a.member_roles_cache.store, e.2.2 = oracle e.1.1 e.1.2

/-- Every guild-role cache entry agrees with the store. -/
def RolesCacheOK (a : AuthSvcState) (db : DB) : Prop :=
  ∀ e ∈ a.auth_roles_map_cache.store, e.2.2 = db.auth_roles_of e.1

/-- Every presence cache entry agrees with the store. -/
def PresenceCacheOK (a : AuthSvcState) (db : DB) : Prop :=
  ∀ e ∈ a.ship_instance_guilds_cache.store, e.2.2 = presenceOf db e.1

end AuthSvc

/-- Primary-key uniqueness of the `ships.id` column. -/
def ShipIdsUnique (db : DB) : Prop :=
  ∀ s ∈ db.ships, ∀ t ∈ db.ships, s.id = t.id → s = t

/-- The module-level `_locks` registry of utils/locks.py: key to asyncio.Lock,
each lock reduced to its held flag (a sequential run has no waiter queue). -/
structure LockReg where
  locks : List (String × Bool)
deriving DecidableEq, Repr

namespace Locks

/-- `_locks.setdefault(key, asyncio.Lock())`. -/
def setdefault (key : String) (r : LockReg) : LockReg :=
  if r.locks.any (fun e => e.1 = key) then r
  else { locks := r.locks ++ [(key, false)] }

/-- Flip the held flag of `key`'s lock. -/
def setLocked (key : String) (b : Bool) (r : LockReg) : LockReg :=
  { locks := r.locks.map (fun e => if e.1 = key then (key, b) else e) }

/-- `lock.locked()`. -/
def lockedOf (key : String) (r : LockReg) : Bool :=
  ((r.locks.find? (fun e => e.1 = key)).map (fun e => e.2)).getD false

/-- `_locks.pop(key, None)`. -/
def pop (key : String) (r : LockReg) : LockReg :=
  { locks := r.locks.eraseP (fun e => e.1 = key) }

/-- `with_lock(key, fn)` (utils/locks.py), run sequentially with no other
waiter: setdefault, acquire, run `fn`, then the `finally` clause — which
tests `lock.locked()` while the lock is still held, since it executes inside
the `async with` block — and finally the release performed by `async with` on
exit.  The result of `fn` (value or raised error) is returned unchanged. -/
def with_lock {σ α : Type} (key : String) (fn : σ → Except String (σ × α))
    (r : LockReg) (s : σ) : Except String (σ × α) × LockReg :=
  let r1 := setdefault key r
  let r2 := setLocked key true r1
  let res := fn s
  let r3 := if lockedOf key r2 then r2 else pop key r2
  let r4 := setLocked key false r3
  (res, r4)

end Locks

/-- A built presentation payload (embed): opaque token carrying the snapshot
it was derived from. -/
structure Embed where
  payload : String
deriving DecidableEq, Repr

/-- The messaging-platform collaborator consumed by the fan-out propagator:
channel fetch, text-channel test, message fetch and message edit, each
fallible. -/
structure Messenger where
  fetch_channel : Nat → Except String Nat
  has_fetch_message : Nat → Bool
  fetch_message : Nat → Nat → Except String Nat
  edit : Nat → Embed → Except String Unit

/-- Outcome of one per-instance update attempt. -/
inductive EditOutcome where
  | edited
  | skipped
  | failed (e : String)
deriving DecidableEq, Repr

namespace Updater

/-- The body of the per-instance try-block of `update_all_instances`
(utils/updater.py): fetch the channel, skip non-text channels, fetch the
message, edit it with the precomputed embed; any step may raise. -/
def update_one (bot : Messenger) (embed : Embed) (inst : InstanceRow) :
    Except String EditOutcome := do
  let ch ← bot.fetch_channel inst.channel_id
  if ¬ bot.has_fetch_message ch then .ok .skipped
  else do
    let msg ← bot.fetch_message ch inst.message_id
    bot.edit msg embed
    .ok .edited

/-- The fan-out for-loop: each iteration runs `update_one` under the
try/except, recording (and logging) a raised error instead of propagating
it. -/
def fanout_loop (bot : Messenger) (embed : Embed) :
    List InstanceRow → List (InstanceRow × EditOutcome)
  | [] => []
  | inst :: rest =>
      let outcome := match update_one bot embed inst with
                     | .ok o => o
                     | .error e => .failed e
      (inst, outcome) :: fanout_loop bot embed rest

/-- The caught outcome of one loop iteration: what `fanout_loop` records for
an instance. -/
def attempt_outcome (bot : Messenger) (embed : Embed) (inst : InstanceRow) :
    EditOutcome :=
  match update_one bot embed inst with
  | .ok o => o
  | .error e => .failed e

/-- `update_all_instances`: build the embed once (outside any try/except, so
a failing builder propagates), then run the loop. -/
def update_all_instances (bot : Messenger) (instances : List InstanceRow)
    (build_embed : Except String Embed) :
    Except String (List (InstanceRow × EditOutcome)) := do
  let embed ← build_embed
  .ok (fanout_loop bot embed instances)

end Updater

instance {ε α : Type} [DecidableEq ε] [DecidableEq α] : DecidableEq (Except ε α)
  | .ok a, .ok b =>
      if h : a = b then .isTrue (by rw [h]) else .isFalse (by simp [h])
  | .ok _, .error _ => .isFalse (by simp)
  | .error _, .ok _ => .isFalse (by simp)
  | .error a, .error b =>
      if h : a = b then .isTrue (by rw [h]) else .isFalse (by simp [h])

/-! Concrete fixtures used by witnesses and counterexamples. -/

/-- A ship row with the given id, status, share code and link root; guild 10,
war 100, name "Boaty". -/
def mkTestShip (sid : Nat) (status share : Val) (root : Option Nat) : Ship :=
  { id := sid, guild_id := 10, war_id := 100, type_ := .null,
    name := .str "Boaty", status := status, damage := .int 3,
    location := .str "Port", home_port := .null, notes := .null, keys := .null,
    image_url := .null, regiment := .null, share_code := share,
    squad_lock_until := .int 0, link_root_id := root }

/-- An empty store apart from the fixed war row. -/
def baseDB (ships : List Ship) : DB :=
  { wars := [(10, 100)], ships := ships, updates := [], instances := [],
    ship_auth_users := [], guild_auth_users := [], guild_auth_roles := [],
    next_ship_id := 1000, next_war_id := 101 }

/-- One ship whose stored status is "Dead". -/
def deadDB : DB := baseDB [mkTestShip 1 (.str "Dead") .null none]

/-- One mutable ship. -/
def aliveDB : DB := baseDB [mkTestShip 1 (.str "Parked") .null none]

/-- A link group of three ships rooted at ship 1, with no audit rows yet. -/
def linkedDB : DB :=
  baseDB [mkTestShip 1 (.str "Parked") .null none,
          mkTestShip 2 (.str "Parked") .null (some 1),
          mkTestShip 3 (.str "Parked") .null (some 1)]

/-- Two ships holding the same share code (reachable via
`update_field("share_code", ...)`, which accepts any value). -/
def dupCodeDB : DB :=
  baseDB [mkTestShip 1 (.str "Parked") (.str "ABCD1234") none,
          mkTestShip 2 (.str "Parked") (.str "ABCD1234") none]

/-- A single ship holding a share code. -/
def oneCodeDB : DB := baseDB [mkTestShip 1 (.str "Parked") (.str "ZZZZ9999") none]

/-- A ship reachable in guild 10's war with a per-ship grant for user 77. -/
def grantDB : DB :=
  { baseDB [mkTestShip 1 (.str "Parked") .null none] with
    ship_auth_users := [(1, 77)] }

/-- Fresh auth-service caches (TTLs and capacity as configured). -/
def freshAuth : AuthSvcState :=
  ⟨TTLCache.empty 60 1024, TTLCache.empty 60 1024, TTLCache.empty 60 1024⟩

/-- A member-role directory that knows no roles. -/
def noRoles : AuthSvc.RoleOracle := fun _ _ => []

/-- Three registered instances in channel 5, messages 1-3. -/
def threeInstances : List InstanceRow :=
  [⟨1, 10, 5, 1, true⟩, ⟨1, 10, 5, 2, false⟩, ⟨1, 10, 5, 3, false⟩]

/-- A messaging collaborator whose edit raises not-found on message 2 only. -/
def flakyBot : Messenger :=
  { fetch_channel := fun c => .ok c,
    has_fetch_message := fun _ => true,
    fetch_message := fun _ m => .ok m,
    edit := fun m _ => if m = 2 then .error "NotFound" else .ok () }

/-- A short cache workload exercising all four operations. -/
def cacheOps1 : List (CacheOp Nat Nat) :=
  [.set 1 10 0, .set 2 20 1, .get 1 5, .set 3 30 6, .invalidate 2, .clear,
   .set 4 40 7]

/-! ### Helper lemmas -/

theorem except_bind_ok {ε α β : Type} (a : α) (f : α → Except ε β) :
    (Except.ok a >>= f) = f a := rfl

theorem find?_update_ships (l : List Ship) (sid : Nat) (f : String) (v : Val)
    (hid : ∀ a : Ship, (a.setField f v).id = a.id)
    (ship : Ship) (h : l.find? (fun s => s.id = sid) = some ship) :
    (l.map (fun s => if s.id = sid then s.setField f v else s)).find?
        (fun s => s.id = sid) = some (ship.setField f v) := by
  induction l with
  | nil => simp at h
  | cons a t ih =>
      by_cases ha : a.id = sid
      · rw [List.find?_cons_of_pos _ (by simpa using ha)] at h
        injection h with h
        subst h
        simp only [List.map_cons, if_pos ha]
        exact List.find?_cons_of_pos _ (by simp [hid, ha])
      · rw [List.find?_cons_of_neg _ (by simpa using ha)] at h
        simp only [List.map_cons, if_neg ha]
        rw [List.find?_cons_of_neg _ (by simpa using ha)]
        exact ih h

/-- C10: the terminal-state check of `_ensure_mutable` is case-insensitive —
it raises the read-only violation exactly when the stored status equals
"dead" after lowercasing (per-guild variant), respectively after trimming
and lowercasing (linked-ship variant), so "DEAD" and "dead" are read-only,
and a NULL status is mutable. -/
theorem dead_check_case_insensitive (ship : Ship) :
    (∀ s : String, ship.status = .str s →
        ((ShipSvc.ensure_mutable ship = .error readOnlyMsg
            ↔ pyLower s = "dead")
          ∧ (ShipSvc.ensure_mutable_linked ship = .error readOnlyMsg
              ↔ pyLower (pyStrip s) = "dead")))
    ∧ (ship.status = .null →
        ShipSvc.ensure_mutable ship = .ok ()
          ∧ ShipSvc.ensure_mutable_linked ship = .ok ()) := by
  constructor
  · intro s hs
    unfold ShipSvc.ensure_mutable ShipSvc.ensure_mutable_linked
    rw [hs]
    constructor
    · by_cases h : pyLower s = "dead" <;> simp [Val.statusText, h]
    · by_cases h : pyLower (pyStrip s) = "dead" <;> simp [Val.statusText, h]
  · intro hs
    unfold ShipSvc.ensure_mutable ShipSvc.ensure_mutable_linked
    rw [hs]
    constructor <;> simp [Val.statusText] <;> decide

theorem dead_check_case_insensitive_witness :
    ShipSvc.ensure_mutable (mkTestShip 1 (.str "DEAD") .null none)
        = .error readOnlyMsg
      ∧ ShipSvc.ensure_mutable (mkTestShip 1 .null .null none) = .ok () := by
  refine ⟨?_, ?_⟩
  · exact ((dead_check_case_insensitive
      (mkTestShip 1 (.str "DEAD") .null none)).1 "DEAD" rfl).1.mpr (by decide)
  · exact ((dead_check_case_insensitive
      (mkTestShip 1 .null .null none)).2 rfl).1

theorem mem_pyStrip (s : String) (c : Char) (h : c ∈ (pyStrip s).data) :
    c ∈ s.data := by
  unfold pyStrip at h
  dsimp only at h
  rw [List.mem_reverse] at h
  have h1 := (List.dropWhile_sublist _).subset h
  rw [List.mem_reverse] at h1
  exact (List.dropWhile_sublist _).subset h1

theorem ascii_pyIsDigit_decimal (c : Char) (hascii : c.toNat < 128)
    (hd : pyIsDigit c = true) : (pyDecimalVal c).isSome = true := by
  unfold pyIsDigit at hd
  simp only [decide_eq_true_eq, Bool.or_eq_true] at hd
  rcases hd with h | h | h | h
  · simpa using h
  all_goals
    rw [h] at hascii
    exact absurd hascii (by decide)

theorem decDigitsVal_isSome (cs : List Char) (hne : cs ≠ [])
    (hall : cs.all (fun c => (pyDecimalVal c).isSome) = true) :
    ∃ n, decDigitsVal cs = some n := by
  unfold decDigitsVal
  rw [if_pos ⟨hne, hall⟩]
  exact ⟨_, rfl⟩

/-- C6 (amended): for every damage input string of ASCII characters,
`set_damage_clamped` succeeds and stores an integer clamped to [0, 5]: "9"
stores 5 and "-4" or any non-numeric ASCII input stores 0 rather than raising
— whereas non-ASCII digit-typed input such as "²" passes the isdigit guard
but makes `int()` raise (see the counterexample). -/
theorem damage_clamped_in_range (st : DB) (sid uid : Nat) (ship : Ship)
    (ds : Option String)
    (hascii : ∀ s0, ds = some s0 →
        s0.data.all (fun c => c.toNat < 128) = true)
    (hs : st.get_ship_by_id sid = some ship)
    (hm : ShipSvc.ensure_mutable ship = .ok ()) :
    (∃ dmg st2, ShipSvc.damageFromStr ds = .ok dmg
        ∧ 0 ≤ dmg ∧ dmg ≤ 5
        ∧ ShipSvc.set_damage_clamped sid uid ds st = .ok st2
        ∧ st2.get_ship_by_id sid
            = some (ship.setField "damage" (.int dmg)))
    ∧ ShipSvc.damageFromStr (some "9") = .ok 5
    ∧ ShipSvc.damageFromStr (some "-4") = .ok 0
    ∧ ShipSvc.damageFromStr (some "gibberish") = .ok 0 := by
  have hfetch : ShipSvc.fetchShip sid st = .ok ship := by
    unfold ShipSvc.fetchShip
    rw [hs]
  refine ⟨?_, by decide, by decide, by decide⟩
  have hdmg : ∃ dmg, ShipSvc.damageFromStr ds = .ok dmg
      ∧ 0 ≤ dmg ∧ dmg ≤ 5 := by
    cases ds with
    | none => exact ⟨0, rfl, by norm_num, by norm_num⟩
    | some s =>
        unfold ShipSvc.damageFromStr
        dsimp only
        by_cases hguard : s ≠ "" ∧ (pyStrip s).data ≠ [] ∧
            (pyStrip s).data.all pyIsDigit
        · rw [if_pos hguard]
          have hall : (pyStrip s).data.all
              (fun c => (pyDecimalVal c).isSome) = true := by
            rw [List.all_eq_true]
            intro c hc
            have hca : c.toNat < 128 := by
              have ha := hascii s rfl
              rw [List.all_eq_true] at ha
              have := ha c (mem_pyStrip s c hc)
              simpa using this
            have hcd : pyIsDigit c = true := by
              have hg := hguard.2.2
              rw [List.all_eq_true] at hg
              exact hg c hc
            simpa using ascii_pyIsDigit_decimal c hca hcd
          obtain ⟨n, hn⟩ := decDigitsVal_isSome (pyStrip s).data hguard.2.1 hall
          rw [hn]
          exact ⟨_, rfl, le_max_left 0 _,
            max_le (by norm_num) (min_le_left _ _)⟩
        · rw [if_neg hguard]
          exact ⟨0, rfl, by norm_num, by norm_num⟩
  obtain ⟨dmg, hdmgeq, h0, h5⟩ := hdmg
  have hrun : ShipSvc.set_damage_clamped sid uid ds st
      = st.update_ship_field sid uid "damage" (.int dmg) := by
    unfold ShipSvc.set_damage_clamped
    rw [hfetch, except_bind_ok, hm, except_bind_ok, hdmgeq, except_bind_ok]
  rw [hrun]
  unfold DB.update_ship_field
  rw [if_neg (by decide)]
  refine ⟨dmg, _, hdmgeq, h0, h5, rfl, ?_⟩
  exact find?_update_ships st.ships sid "damage" (.int dmg)
    (fun _ => rfl) ship hs

/-- C6 counterexample: the superscript digit "²" satisfies the
`damage_str.strip().isdigit()` guard but is not a decimal number, so `int()`
raises and `set_damage_clamped` raises ValueError on a mutable ship instead
of storing 0 — refuting the claim as stated over all input strings. -/
theorem damage_unicode_raises_counterexample :
    ShipSvc.set_damage_clamped 1 7 (some "²") aliveDB
      = .error "ValueError" := by
  decide

theorem fanout_loop_eq_map (bot : Messenger) (e : Embed)
    (l : List InstanceRow) :
    Updater.fanout_loop bot e l
      = l.map (fun i => (i, Updater.attempt_outcome bot e i)) := by
  induction l with
  | nil => rfl
  | cons a t ih =>
      unfold Updater.fanout_loop
      rw [List.map_cons, ih]
      rfl

/-- C7: `update_all_instances` builds the presentation payload once from the
single loaded snapshot and attempts an edit on every registered instance with
that same payload; per-instance failures are caught inside the loop, never
prevent the remaining attempts, and the call as a whole returns normally. -/
theorem fanout_attempts_all_instances (bot : Messenger)
    (instances : List InstanceRow) (build_embed : Except String Embed)
    (e : Embed) (hb : build_embed = .ok e) :
    Updater.update_all_instances bot instances build_embed
      = .ok (instances.map (fun i => (i, Updater.attempt_outcome bot e i))) := by
  unfold Updater.update_all_instances
  rw [hb, except_bind_ok, fanout_loop_eq_map]

theorem fanout_attempts_all_instances_witness :
    Updater.update_all_instances flakyBot threeInstances (.ok ⟨"snapshot"⟩)
      = .ok [(⟨1, 10, 5, 1, true⟩, .edited),
             (⟨1, 10, 5, 2, false⟩, .failed "NotFound"),
             (⟨1, 10, 5, 3, false⟩, .edited)] := by
  rw [fanout_attempts_all_instances flakyBot threeInstances
    (.ok ⟨"snapshot"⟩) ⟨"snapshot"⟩ rfl]
  rfl

/-- C4: after `with_lock(key, fn)` completes with no other waiter, the
registry entry for key is NOT removed — the cleanup guard
`if not lock.locked()` runs inside the `async with` block while the lock is
still held, so it is always false; the lock itself is released (flag false)
and an error raised by `fn` propagates unchanged.  This refutes the claimed
removal of the entry. -/
theorem with_lock_leaves_registry_entry :
    Locks.with_lock "ship:1" (fun (s : Nat) => Except.ok (s + 1, s))
        ⟨[]⟩ 5
      = (.ok (6, 5), ⟨[("ship:1", false)]⟩)
    ∧ Locks.with_lock "ship:1"
        (fun (_ : Nat) => (Except.error "boom" : Except String (Nat × Nat)))
        ⟨[]⟩ 5
      = (.error "boom", ⟨[("ship:1", false)]⟩) := by
  constructor <;> rfl

/-- C2: evaluating `update_field_linked` on a link group of three ships shows
the field applied to all three member rows but SIX audit rows appended — two
per member, because the dao duplicates its history+update loop verbatim in a
nested connect block — where the claim (and the dao's own docstring) expect
exactly one audit row per member. -/
theorem update_field_linked_double_audit :
    ((DB.update_field_linked 2 9 "status" (.str "Deployed") linkedDB).toOption.map
        (fun st => (st.updates.length,
                    st.updates.map (fun u => u.ship_id),
                    st.ships.map (fun s => s.status))))
      = some (6, [1, 2, 3, 1, 2, 3],
              [.str "Deployed", .str "Deployed", .str "Deployed"]) := by
  decide

/-- C5 counterexample: when two ships hold the same share code — a state
reachable through `update_field("share_code", ...)`, which accepts arbitrary
values — two sequential consumes BOTH return ship ids, so "at most one call
returns a ship id" fails as universally stated. -/
theorem consume_share_code_duplicate_counterexample :
    (ShipSvc.consume_share_code "ABCD1234" dupCodeDB).1 = some 1
      ∧ (ShipSvc.consume_share_code "ABCD1234"
          (ShipSvc.consume_share_code "ABCD1234" dupCodeDB).2).1 = some 2 := by
  decide

theorem eq_of_mem_of_length_le_one {α : Type} {l : List α} {a b : α}
    (h : l.length ≤ 1) (ha : a ∈ l) (hb : b ∈ l) : a = b := by
  match l with
  | [] => simp at ha
  | [x] =>
      simp at ha hb
      rw [ha, hb]
  | x :: y :: t => simp at h

/-- C5 (amended): provided at most one ship holds the code — the state the
high-entropy generator maintains — consumption is exactly-once: a successful
consume leaves no holder, so the second sequential call returns None; and
consuming a code no ship holds returns None and mutates no ship row. -/
theorem consume_share_code_exactly_once (st : DB) (code : String)
    (huniq : (st.ships.filter (fun s => s.share_code = .str code)).length ≤ 1) :
    ((ShipSvc.consume_share_code code st).1.isSome = true →
        (ShipSvc.consume_share_code code
            (ShipSvc.consume_share_code code st).2).1 = none)
      ∧ ((ShipSvc.consume_share_code code st).1 = none →
          (ShipSvc.consume_share_code code st).2 = st) := by
  cases hfind : st.ships.find? (fun s => s.share_code = .str code) with
  | none =>
      have h0 : ShipSvc.consume_share_code code st = (none, st) := by
        unfold ShipSvc.consume_share_code
        rw [hfind]
      rw [h0]
      exact ⟨fun h => by simp at h, fun _ => rfl⟩
  | some s =>
      have hmem : s ∈ st.ships := List.mem_of_find?_eq_some hfind
      have hcode : s.share_code = .str code := by
        have := List.find?_some hfind
        simpa using this
      have h0 : ShipSvc.consume_share_code code st
          = (some s.id, { st with ships := st.ships.map (fun t =>
              if t.id = s.id then { t with share_code := Val.null } else t) }) := by
        unfold ShipSvc.consume_share_code
        rw [hfind]
      rw [h0]
      refine ⟨?_, ?_⟩
      · intro _
        have hnone : (st.ships.map (fun t =>
            if t.id = s.id then { t with share_code := Val.null } else t)).find?
              (fun u => u.share_code = .str code) = none := by
          apply List.find?_eq_none.mpr
          intro t ht
          simp only [List.mem_map] at ht
          obtain ⟨u, hu, hut⟩ := ht
          by_cases hid : u.id = s.id
          · rw [if_pos hid] at hut
            rw [← hut]
            simp
          · rw [if_neg hid] at hut
            subst hut
            simp only [decide_eq_true_eq]
            intro hts
            have ht_f : u ∈ st.ships.filter
                (fun u2 => u2.share_code = .str code) := by
              rw [List.mem_filter]
              exact ⟨hu, by simp [hts]⟩
            have hs_f : s ∈ st.ships.filter
                (fun u2 => u2.share_code = .str code) := by
              rw [List.mem_filter]
              exact ⟨hmem, by simp [hcode]⟩
            exact hid (congrArg Ship.id
              (eq_of_mem_of_length_le_one huniq ht_f hs_f))
        show (ShipSvc.consume_share_code code _).1 = none
        unfold ShipSvc.consume_share_code
        rw [hnone]
      · intro h
        simp at h

theorem consume_share_code_exactly_once_witness :
    ((ShipSvc.consume_share_code "ZZZZ9999" oneCodeDB).1.isSome = true →
        (ShipSvc.consume_share_code "ZZZZ9999"
            (ShipSvc.consume_share_code "ZZZZ9999" oneCodeDB).2).1 = none)
      ∧ ((ShipSvc.consume_share_code "ZZZZ9999" oneCodeDB).1 = none →
          (ShipSvc.consume_share_code "ZZZZ9999" oneCodeDB).2 = oneCodeDB) :=
  consume_share_code_exactly_once oneCodeDB "ZZZZ9999" (by decide)

/-- C1 (amended): a ship whose stored status is "Dead" rejects every mutation
operation of the ship service with the read-only violation before any write —
except `mark_dead` (the audited terminal-state call, by design) and
`update_field`, which performs no `_ensure_mutable` check at all (see the
counterexample). -/
theorem dead_ships_reject_mutations (st : DB) (sid uid : Nat) (ship : Ship)
    (v : String) (w ds notes smokes : Option String) (now days : Nat)
    (fields : List (String × Val)) (code : String)
    (hs : st.get_ship_by_id sid = some ship)
    (hdead : ship.status = .str "Dead") :
    ShipSvc.set_status sid uid v st = .error readOnlyMsg
    ∧ ShipSvc.set_location sid uid w st = .error readOnlyMsg
    ∧ ShipSvc.set_damage_clamped sid uid ds st = .error readOnlyMsg
    ∧ ShipSvc.set_notes sid uid notes st = .error readOnlyMsg
    ∧ ShipSvc.refresh_squad_lock sid uid now days st = .error readOnlyMsg
    ∧ ShipSvc.depart sid uid st = .error readOnlyMsg
    ∧ ShipSvc.start_repairs sid uid w st = .error readOnlyMsg
    ∧ ShipSvc.finish_repairs sid uid w notes st = .error readOnlyMsg
    ∧ ShipSvc.return_to_port sid uid w smokes notes st = .error readOnlyMsg
    ∧ ShipSvc.edit_fields_bulk sid uid fields st = .error readOnlyMsg
    ∧ ShipSvc.gen_one_time_share_code sid uid code st = .error readOnlyMsg := by
  have hfetch : ShipSvc.fetchShip sid st = .ok ship := by
    unfold ShipSvc.fetchShip
    rw [hs]
  have hem : ShipSvc.ensure_mutable ship = .error readOnlyMsg := by
    unfold ShipSvc.ensure_mutable
    rw [hdead]
    exact if_pos (by decide)
  refine ⟨?_, ?_, ?_, ?_, ?_, ?_, ?_, ?_, ?_, ?_, ?_⟩
  · unfold ShipSvc.set_status
    rw [hfetch, except_bind_ok, hem]
    rfl
  · unfold ShipSvc.set_location
    rw [hfetch, except_bind_ok, hem]
    rfl
  · unfold ShipSvc.set_damage_clamped
    rw [hfetch, except_bind_ok, hem]
    rfl
  · unfold ShipSvc.set_notes
    rw [hfetch, except_bind_ok, hem]
    rfl
  · unfold ShipSvc.refresh_squad_lock
    rw [hfetch, except_bind_ok, hem]
    rfl
  · unfold ShipSvc.depart
    rw [hfetch, except_bind_ok, hem]
    rfl
  · unfold ShipSvc.start_repairs
    rw [hfetch, except_bind_ok, hem]
    rfl
  · unfold ShipSvc.finish_repairs
    rw [hfetch, except_bind_ok, hem]
    rfl
  · unfold ShipSvc.return_to_port
    rw [hfetch, except_bind_ok, hem]
    rfl
  · unfold ShipSvc.edit_fields_bulk
    rw [hfetch, except_bind_ok, hem]
    rfl
  · unfold ShipSvc.gen_one_time_share_code
    rw [hfetch, except_bind_ok, hem]
    rfl

theorem dead_ships_reject_mutations_witness :
    ShipSvc.set_status 1 7 "Parked" deadDB = .error readOnlyMsg
      ∧ ShipSvc.depart 1 7 deadDB = .error readOnlyMsg
      ∧ ShipSvc.gen_one_time_share_code 1 7 "ABCD1234" deadDB
          = .error readOnlyMsg := by
  have h := dead_ships_reject_mutations deadDB 1 7
    (mkTestShip 1 (.str "Dead") .null none) "Parked" (some "x") (some "9")
    (some "n") (some "2") 0 2 [("notes", .str "n")] "ABCD1234"
    (by decide) rfl
  exact ⟨h.1, h.2.2.2.2.2.1, h.2.2.2.2.2.2.2.2.2.2⟩

/-- C1 counterexample: `update_field` carries no `_ensure_mutable` check, so
on a ship whose stored status is "Dead" it succeeds (no read-only violation)
and changes the field, refuting the claim's inclusion of `update_field`. -/
theorem update_field_mutates_dead_counterexample :
    ((ShipSvc.update_field 10 "Boaty" 7 "location" (.str "Elsewhere")
        deadDB).toOption.map
          (fun r => (r.2.map (fun s => s.location),
                     r.2.map (fun s => s.status))))
      = some (some (.str "Elsewhere"), some (.str "Dead")) := by
  decide

theorem damage_clamped_in_range_witness :
    (∃ dmg st2, ShipSvc.damageFromStr (some "9") = .ok dmg
        ∧ 0 ≤ dmg ∧ dmg ≤ 5
        ∧ ShipSvc.set_damage_clamped 1 7 (some "9") aliveDB = .ok st2
        ∧ st2.get_ship_by_id 1
            = some ((mkTestShip 1 (.str "Parked") .null none).setField "damage"
                (.int dmg)))
    ∧ ShipSvc.damageFromStr (some "9") = .ok 5
    ∧ ShipSvc.damageFromStr (some "-4") = .ok 0
    ∧ ShipSvc.damageFromStr (some "gibberish") = .ok 0 :=
  damage_clamped_in_range aliveDB 1 7 (mkTestShip 1 (.str "Parked") .null none)
    (some "9") (by intro s0 h; cases h; decide) (by decide) (by decide)

theorem dictSet_length {K V : Type} [DecidableEq K]
    (store : List (K × Nat × V)) (k : K) (tv : Nat × V) :
    (TTLCache.dictSet store k tv).length ≤ store.length + 1 := by
  unfold TTLCache.dictSet
  split_ifs with h
  · rw [List.length_map]
    omega
  · rw [List.length_append]
    simp

theorem evictOldest_length {K V : Type} (store : List (K × Nat × V))
    (h : store ≠ []) :
    (TTLCache.evictOldest store).length + 1 = store.length := by
  unfold TTLCache.evictOldest
  cases hmin : (store.map (fun e => e.2.1)).min? with
  | none =>
      rw [List.min?_eq_none_iff, List.map_eq_nil_iff] at hmin
      exact absurd hmin h
  | some m =>
      have hm : m ∈ store.map (fun e => e.2.1) :=
        List.min?_mem (fun a b => min_choice a b) hmin
      obtain ⟨e, he, hem⟩ := List.mem_map.mp hm
      exact List.length_eraseP_add_one he (by simp [hem])

theorem get_store_le {K V : Type} [DecidableEq K] (c : TTLCache K V)
    (k : K) (now : Nat) :
    ((c.get k now).2).store.length ≤ c.store.length
      ∧ ((c.get k now).2).maxsize = c.maxsize := by
  unfold TTLCache.get
  cases hl : c.lookup k with
  | none => exact ⟨le_refl _, rfl⟩
  | some tv =>
      obtain ⟨ts, v⟩ := tv
      simp only
      split_ifs
      · exact ⟨(List.eraseP_sublist _).length_le, rfl⟩
      · exact ⟨le_refl _, rfl⟩

theorem set_store_bound {K V : Type} [DecidableEq K] (c : TTLCache K V)
    (k : K) (v : V) (now : Nat) (hmax : 1 ≤ c.maxsize)
    (h : c.store.length ≤ c.maxsize) :
    (c.set k v now).store.length ≤ c.maxsize := by
  unfold TTLCache.set
  simp only
  split_ifs with hcap
  · have hne : c.store ≠ [] := by
      intro hnil
      rw [hnil] at hcap
      simp at hcap
      omega
    have hev := evictOldest_length c.store hne
    have hds := dictSet_length (TTLCache.evictOldest c.store) k (now, v)
    omega
  · have hds := dictSet_length c.store k (now, v)
    omega

theorem cacheStep_bound {K V : Type} [DecidableEq K] (c : TTLCache K V)
    (op : CacheOp K V) (hmax : 1 ≤ c.maxsize)
    (h : c.store.length ≤ c.maxsize) :
    (cacheStep c op).store.length ≤ c.maxsize
      ∧ (cacheStep c op).maxsize = c.maxsize := by
  cases op with
  | get k now =>
      have hg := get_store_le c k now
      exact ⟨hg.1.trans h, hg.2⟩
  | set k v now => exact ⟨set_store_bound c k v now hmax h, rfl⟩
  | invalidate k =>
      refine ⟨?_, rfl⟩
      exact ((List.eraseP_sublist _).length_le).trans h
  | clear => exact ⟨by simp [cacheStep, TTLCache.clear], rfl⟩

/-- C8: for every cache built with maxsize at least 1, no sequence of get,
set, invalidate and clear calls ever grows the store beyond maxsize — set
evicts the oldest-stamped entry before inserting whenever at capacity. -/
theorem cache_size_bounded {K V : Type} [DecidableEq K] (ttl maxsize : Nat)
    (hmax : 1 ≤ maxsize) (ops : List (CacheOp K V)) :
    (runCacheOps ops (TTLCache.empty ttl maxsize : TTLCache K V)).store.length
      ≤ maxsize := by
  have main : ∀ (l : List (CacheOp K V)) (c : TTLCache K V), 1 ≤ c.maxsize →
      c.store.length ≤ c.maxsize →
      (runCacheOps l c).store.length ≤ c.maxsize := by
    intro l
    induction l with
    | nil =>
        intro c _ h
        exact h
    | cons op rest ih =>
        intro c hm1 h
        have hstep := cacheStep_bound c op hm1 h
        have hrun : runCacheOps (op :: rest) c
            = runCacheOps rest (cacheStep c op) := rfl
        rw [hrun]
        have := ih (cacheStep c op) (hstep.2 ▸ hm1) (hstep.2 ▸ hstep.1)
        rw [hstep.2] at this
        exact this
  exact main ops (TTLCache.empty ttl maxsize) hmax (by simp [TTLCache.empty])

theorem cache_size_bounded_witness :
    1 ≤ 2
      ∧ (runCacheOps cacheOps1
          (TTLCache.empty 60 2 : TTLCache Nat Nat)).store.length ≤ 2 :=
  ⟨by decide, cache_size_bounded 60 2 (by decide) cacheOps1⟩

theorem upsert_war_ships (g : Nat) (st : DB) :
    ((st.upsert_war g).2).ships = st.ships := by
  unfold DB.upsert_war
  cases hfind : st.wars.find? (fun w => w.1 = g) <;> simp [hfind]

theorem upsert_war_next_ship_id (g : Nat) (st : DB) :
    ((st.upsert_war g).2).next_ship_id = st.next_ship_id := by
  unfold DB.upsert_war
  cases hfind : st.wars.find? (fun w => w.1 = g) <;> simp [hfind]

theorem upsert_war_finds (g : Nat) (st : DB) :
    ((st.upsert_war g).2).wars.find? (fun w => w.1 = g)
      = some (g, (st.upsert_war g).1) := by
  unfold DB.upsert_war
  cases hfind : st.wars.find? (fun w => w.1 = g) with
  | some w =>
      simp only [hfind]
      have h1 : w.1 = g := by simpa using List.find?_some hfind
      rw [← h1]
  | none =>
      simp only [hfind]
      rw [List.find?_append, hfind]
      simp [List.find?]

theorem upsert_war_stable (g : Nat) (st : DB) (wid : Nat)
    (h : st.wars.find? (fun w => w.1 = g) = some (g, wid)) :
    st.upsert_war g = (wid, st) := by
  unfold DB.upsert_war
  rw [h]

/-- C9: `get_or_create_ship` is idempotent — two successive calls for the
same guild and name return ship rows with the same id, and the second call
inserts no ship row. -/
theorem get_or_create_ship_idempotent (st : DB) (g : Nat) (n : String)
    (hfresh : ∀ s ∈ st.ships, s.id < st.next_ship_id) :
    ∃ s1 s2,
      (ShipSvc.get_or_create_ship g n st).1 = some s1
      ∧ (ShipSvc.get_or_create_ship g n
          (ShipSvc.get_or_create_ship g n st).2).1 = some s2
      ∧ s2.id = s1.id
      ∧ ((ShipSvc.get_or_create_ship g n
          (ShipSvc.get_or_create_ship g n st).2).2).ships
          = ((ShipSvc.get_or_create_ship g n st).2).ships := by
  unfold ShipSvc.get_or_create_ship
  cases hw : st.upsert_war g with
  | mk wid st1 =>
      have hships1 : st1.ships = st.ships := by
        have := upsert_war_ships g st
        rw [hw] at this
        exact this
      have hnext1 : st1.next_ship_id = st.next_ship_id := by
        have := upsert_war_next_ship_id g st
        rw [hw] at this
        exact this
      have hfinds1 : st1.wars.find? (fun w => w.1 = g) = some (g, wid) := by
        have := upsert_war_finds g st
        rw [hw] at this
        exact this
      cases hship : st1.get_ship g wid n with
      | some ship =>
          have hround : st1.upsert_war g = (wid, st1) :=
            upsert_war_stable g st1 wid hfinds1
          refine ⟨ship, ship, ?_, ?_, rfl, ?_⟩ <;>
            simp [hw, hship, hround]
      | none =>
          cases hadd : st1.add_ship_named g wid n with
          | mk nid st2 =>
              have hnid : nid = st.next_ship_id := by
                have : nid = st1.next_ship_id := by
                  unfold DB.add_ship_named at hadd
                  injection hadd with h1 h2
                  exact h1.symm
                rw [this, hnext1]
              have hships2 : st2.ships = st1.ships ++
                  [{ id := st1.next_ship_id, guild_id := g, war_id := wid,
                     type_ := .null, name := .str n, status := .null,
                     damage := .null, location := .null, home_port := .null,
                     notes := .null, keys := .null, image_url := .null,
                     regiment := .null, share_code := .null,
                     squad_lock_until := .null, link_root_id := none }] := by
                unfold DB.add_ship_named at hadd
                injection hadd with h1 h2
                rw [← h2]
              have hwars2 : st2.wars = st1.wars := by
                unfold DB.add_ship_named at hadd
                injection hadd with h1 h2
                rw [← h2]
              set newShip : Ship :=
                { id := st1.next_ship_id, guild_id := g, war_id := wid,
                  type_ := .null, name := .str n, status := .null,
                  damage := .null, location := .null, home_port := .null,
                  notes := .null, keys := .null, image_url := .null,
                  regiment := .null, share_code := .null,
                  squad_lock_until := .null, link_root_id := none } with hnew
              have holdfail : st1.ships.find?
                  (fun s => s.id = st1.next_ship_id) = none := by
                apply List.find?_eq_none.mpr
                intro s hmem
                have := hfresh s (hships1 ▸ hmem)
                simp only [decide_eq_true_eq]
                rw [hnext1]
                omega
              have hnid1 : nid = st1.next_ship_id := by rw [hnid, hnext1]
              have hget2 : st2.get_ship_by_id nid = some newShip := by
                unfold DB.get_ship_by_id
                rw [hships2, List.find?_append, hnid1, holdfail]
                simp [hnew, List.find?]
              have holdname : st1.ships.find? (fun s =>
                  s.guild_id = g ∧ s.war_id = wid ∧ s.name = .str n)
                    = none := hship
              have hship2 : st2.get_ship g wid n = some newShip := by
                unfold DB.get_ship
                rw [hships2, List.find?_append]
                unfold DB.get_ship at holdname
                rw [holdname]
                simp [hnew, List.find?]
              have hround : st2.upsert_war g = (wid, st2) := by
                apply upsert_war_stable
                rw [hwars2]
                exact hfinds1
              refine ⟨newShip, newShip, ?_, ?_, rfl, ?_⟩ <;>
                simp [hw, hship, hadd, hget2, hround, hship2]

theorem get_or_create_ship_idempotent_witness :
    ∃ s1 s2,
      (ShipSvc.get_or_create_ship 10 "NewBoat" (baseDB [])).1 = some s1
      ∧ (ShipSvc.get_or_create_ship 10 "NewBoat"
          (ShipSvc.get_or_create_ship 10 "NewBoat" (baseDB [])).2).1 = some s2
      ∧ s2.id = s1.id
      ∧ ((ShipSvc.get_or_create_ship 10 "NewBoat"
          (ShipSvc.get_or_create_ship 10 "NewBoat" (baseDB [])).2).2).ships
          = ((ShipSvc.get_or_create_ship 10 "NewBoat" (baseDB [])).2).ships :=
  get_or_create_ship_idempotent (baseDB []) 10 "NewBoat" (by simp [baseDB])

theorem cacheOK_get {K V : Type} [DecidableEq K] (c : TTLCache K V)
    (f : K → V) (k : K) (now : Nat)
    (h : ∀ e ∈ c.store, e.2.2 = f e.1) :
    ((c.get k now).1 = none ∨ (c.get k now).1 = some (f k))
    ∧ ∀ e ∈ ((c.get k now).2).store, e.2.2 = f e.1 := by
  unfold TTLCache.get TTLCache.lookup
  cases hfind : c.store.find? (fun e => e.1 = k) with
  | none => exact ⟨Or.inl rfl, h⟩
  | some e =>
      obtain ⟨k', ts, v⟩ := e
      have hmem := List.mem_of_find?_eq_some hfind
      have hk : k' = k := by simpa using List.find?_some hfind
      have hv : v = f k := by
        have hh := h _ hmem
        rw [← hk]
        exact hh
      simp only [Option.map]
      split_ifs with hexp
      · refine ⟨Or.inl rfl, ?_⟩
        intro e' he'
        exact h e' ((List.eraseP_sublist _).subset he')
      · exact ⟨Or.inr (by rw [hv]), h⟩

theorem mem_dictSet {K V : Type} [DecidableEq K]
    {store : List (K × Nat × V)} {k : K} {tv : Nat × V} :
    ∀ e ∈ TTLCache.dictSet store k tv, e = (k, tv) ∨ e ∈ store := by
  intro e he
  unfold TTLCache.dictSet at he
  split_ifs at he with hc
  · rw [List.mem_map] at he
    obtain ⟨u, hu, hue⟩ := he
    by_cases hk : u.1 = k
    · rw [if_pos hk] at hue
      exact Or.inl hue.symm
    · rw [if_neg hk] at hue
      exact Or.inr (hue ▸ hu)
  · rw [List.mem_append] at he
    rcases he with h1 | h2
    · exact Or.inr h1
    · rw [List.mem_singleton] at h2
      exact Or.inl h2

theorem mem_evictOldest {K V : Type} {store : List (K × Nat × V)} :
    ∀ e ∈ TTLCache.evictOldest store, e ∈ store := by
  intro e he
  unfold TTLCache.evictOldest at he
  cases hmin : (store.map (fun e => e.2.1)).min? with
  | none =>
      rw [hmin] at he
      exact he
  | some m =>
      rw [hmin] at he
      exact (List.eraseP_sublist _).subset he

theorem cacheOK_set {K V : Type} [DecidableEq K] (c : TTLCache K V)
    (f : K → V) (k : K) (now : Nat)
    (h : ∀ e ∈ c.store, e.2.2 = f e.1) :
    ∀ e ∈ (c.set k (f k) now).store, e.2.2 = f e.1 := by
  intro e he
  unfold TTLCache.set at he
  simp only at he
  rcases mem_dictSet e he with h1 | h2
  · rw [h1]
  · split_ifs at h2 with hcap
    · exact h e (mem_evictOldest e h2)
    · exact h e h2

theorem get_member_role_ids_eq (oracle : AuthSvc.RoleOracle) (g u now : Nat)
    (a : AuthSvcState) (h : AuthSvc.MemberCacheOK oracle a) :
    ∃ a', AuthSvc.get_member_role_ids oracle g u now a = (oracle g u, a')
      ∧ AuthSvc.MemberCacheOK oracle a'
      ∧ a'.auth_roles_map_cache = a.auth_roles_map_cache
      ∧ a'.ship_instance_guilds_cache = a.ship_instance_guilds_cache := by
  unfold AuthSvc.MemberCacheOK at h ⊢
  have hg := cacheOK_get a.member_roles_cache (fun p => oracle p.1 p.2) (g, u)
    now h
  unfold AuthSvc.get_member_role_ids
  cases hres : a.member_roles_cache.get (g, u) now with
  | mk ov c' =>
      rw [hres] at hg
      cases ov with
      | none =>
          refine ⟨_, rfl, ?_, rfl, rfl⟩
          exact cacheOK_set c' (fun p => oracle p.1 p.2) (g, u) now hg.2
      | some v =>
          have hv : v = oracle g u := by
            rcases hg.1 with h1 | h1
            · simp at h1
            · simpa using h1
          subst hv
          exact ⟨{ a with member_roles_cache := c' }, rfl, hg.2, rfl, rfl⟩

theorem get_guild_auth_roles_eq (g now : Nat) (a : AuthSvcState) (db : DB)
    (h : AuthSvc.RolesCacheOK a db) :
    ∃ a', AuthSvc.get_guild_auth_roles g now a db = (db.auth_roles_of g, a')
      ∧ AuthSvc.RolesCacheOK a' db
      ∧ a'.member_roles_cache = a.member_roles_cache
      ∧ a'.ship_instance_guilds_cache = a.ship_instance_guilds_cache := by
  unfold AuthSvc.RolesCacheOK at h ⊢
  have hg := cacheOK_get a.auth_roles_map_cache (fun gid => db.auth_roles_of gid)
    g now h
  unfold AuthSvc.get_guild_auth_roles
  cases hres : a.auth_roles_map_cache.get g now with
  | mk ov c' =>
      rw [hres] at hg
      cases ov with
      | none =>
          refine ⟨_, rfl, ?_, rfl, rfl⟩
          exact cacheOK_set c' (fun gid => db.auth_roles_of gid) g now hg.2
      | some v =>
          have hv : v = db.auth_roles_of g := by
            rcases hg.1 with h1 | h1
            · simp at h1
            · simpa using h1
          subst hv
          exact ⟨{ a with auth_roles_map_cache := c' }, rfl, hg.2, rfl, rfl⟩

theorem get_ship_presence_guilds_eq (sid home now : Nat) (a : AuthSvcState)
    (db : DB) (ship : Ship) (hsid : db.get_ship_by_id sid = some ship)
    (hhome : home = ship.guild_id) (h : AuthSvc.PresenceCacheOK a db) :
    ∃ a', AuthSvc.get_ship_presence_guilds sid home now a db
        = (AuthSvc.presenceOf db sid, a')
      ∧ AuthSvc.PresenceCacheOK a' db
      ∧ a'.member_roles_cache = a.member_roles_cache
      ∧ a'.auth_roles_map_cache = a.auth_roles_map_cache := by
  unfold AuthSvc.PresenceCacheOK at h ⊢
  have hpres : AuthSvc.presenceOf db sid
      = (home :: db.get_instance_guild_ids sid).dedup := by
    unfold AuthSvc.presenceOf
    rw [hsid, hhome]
  have hg := cacheOK_get a.ship_instance_guilds_cache
    (fun s => AuthSvc.presenceOf db s) sid now h
  unfold AuthSvc.get_ship_presence_guilds
  rw [hpres]
  cases hres : a.ship_instance_guilds_cache.get sid now with
  | mk ov c' =>
      rw [hres] at hg
      cases ov with
      | none =>
          refine ⟨_, rfl, ?_, rfl, rfl⟩
          rw [← hpres]
          exact cacheOK_set c' (fun s => AuthSvc.presenceOf db s) sid now hg.2
      | some v =>
          have hv : v = AuthSvc.presenceOf db sid := by
            rcases hg.1 with h1 | h1
            · simp at h1
            · simpa using h1
          subst hv
          exact ⟨{ a with ship_instance_guilds_cache := c' }, by rw [hpres],
            hg.2, rfl, rfl⟩

theorem role_loop_spec (oracle : AuthSvc.RoleOracle) (u now : Nat)
    (gids : List Nat) (db : DB) :
    ∀ (a : AuthSvcState), AuthSvc.MemberCacheOK oracle a →
      AuthSvc.RolesCacheOK a db →
      (AuthSvc.role_loop oracle u now gids a db).1
        = gids.any (fun gid => (oracle gid u).any
            (fun r => r ∈ db.auth_roles_of gid)) := by
  induction gids with
  | nil =>
      intro a _ _
      rfl
  | cons g rest ih =>
      intro a hm hr
      obtain ⟨a1, heq1, hr1, hmEq1, hpEq1⟩ := get_guild_auth_roles_eq g now a db hr
      have hm1 : AuthSvc.MemberCacheOK oracle a1 := by
        unfold AuthSvc.MemberCacheOK at hm ⊢
        rw [hmEq1]
        exact hm
      unfold AuthSvc.role_loop
      rw [heq1]
      simp only
      by_cases hempty : db.auth_roles_of g = []
      · rw [if_pos hempty, ih a1 hm1 hr1]
        simp [hempty, List.any_cons]
      · rw [if_neg hempty]
        obtain ⟨a2, heq2, hm2, hrEq2, hpEq2⟩ :=
          get_member_role_ids_eq oracle g u now a1 hm1
        have hr2 : AuthSvc.RolesCacheOK a2 db := by
          unfold AuthSvc.RolesCacheOK at hr1 ⊢
          rw [hrEq2]
          exact hr1
        rw [heq2]
        simp only
        cases hint : (oracle g u).any (fun r => r ∈ db.auth_roles_of g) with
        | true => simp [List.any_cons, hint]
        | false =>
            rw [if_neg (by simp)]
            rw [ih a2 hm2 hr2]
            simp [List.any_cons, hint]

theorem upsert_war_tables (g : Nat) (st : DB) :
    ((st.upsert_war g).2).ships = st.ships
    ∧ ((st.upsert_war g).2).instances = st.instances
    ∧ ((st.upsert_war g).2).ship_auth_users = st.ship_auth_users
    ∧ ((st.upsert_war g).2).guild_auth_users = st.guild_auth_users
    ∧ ((st.upsert_war g).2).guild_auth_roles = st.guild_auth_roles := by
  unfold DB.upsert_war
  cases hfind : st.wars.find? (fun w => w.1 = g) <;> simp [hfind]

theorem auth_roles_of_congr (gid : Nat) (db1 db2 : DB)
    (h : db1.guild_auth_roles = db2.guild_auth_roles) :
    db1.auth_roles_of gid = db2.auth_roles_of gid := by
  unfold DB.auth_roles_of
  rw [h]

theorem presenceOf_congr (sid : Nat) (db1 db2 : DB)
    (hs : db1.ships = db2.ships) (hi : db1.instances = db2.instances) :
    AuthSvc.presenceOf db1 sid = AuthSvc.presenceOf db2 sid := by
  unfold AuthSvc.presenceOf DB.get_ship_by_id DB.get_instance_guild_ids
  rw [hs, hi]

theorem get_ship_by_id_of_mem (db : DB) (ship : Ship) (hmem : ship ∈ db.ships)
    (hids : ShipIdsUnique db) :
    db.get_ship_by_id ship.id = some ship := by
  unfold DB.get_ship_by_id
  cases hfind : db.ships.find? (fun s => s.id = ship.id) with
  | none =>
      rw [List.find?_eq_none] at hfind
      have := hfind ship hmem
      simp at this
  | some t =>
      have ht := List.mem_of_find?_eq_some hfind
      have htid : t.id = ship.id := by simpa using List.find?_some hfind
      rw [hids t ht ship hmem htid]

theorem users_many_eq_any (gids : List Nat) (u : Nat) (db : DB) :
    db.is_user_in_guild_auth_users_many gids u
      = gids.any (fun gid => db.guild_auth_users.any
          (fun p => p.1 = gid ∧ p.2 = u)) := by
  unfold DB.is_user_in_guild_auth_users_many
  rw [Bool.eq_iff_iff]
  simp only [List.any_eq_true, decide_eq_true_eq]
  constructor
  · rintro ⟨p, hp, hu, hg⟩
    exact ⟨p.1, hg, p, hp, rfl, hu⟩
  · rintro ⟨gid, hgid, p, hp, hpg, hu⟩
    exact ⟨p, hp, hu, hpg ▸ hgid⟩

/-- C3: `user_is_authorized_for_ship_any_guild` — with caches consistent with
the store and the live directory, and primary-key-unique ship ids — returns
false when no ship of that name exists in the requesting guild's current war,
and otherwise returns true iff a per-ship grant exists, or the user is in the
authorized-user allow-list of some presence guild (home guild plus instance
guilds), or some presence guild's authorized-role set intersects the user's
role ids there. -/
theorem auth_resolver_matches_decision (oracle : AuthSvc.RoleOracle)
    (g : Nat) (n : String) (u now : Nat) (a : AuthSvcState) (db : DB)
    (hm : AuthSvc.MemberCacheOK oracle a)
    (hr : AuthSvc.RolesCacheOK a db)
    (hp : AuthSvc.PresenceCacheOK a db)
    (hids : ShipIdsUnique db) :
    (AuthSvc.user_is_authorized_for_ship_any_guild oracle g n u now a db).1
      = AuthSvc.auth_decision oracle g n u db := by
  unfold AuthSvc.user_is_authorized_for_ship_any_guild AuthSvc.auth_decision
  cases hw : db.upsert_war g with
  | mk wid db1 =>
      have htbl := upsert_war_tables g db
      rw [hw] at htbl
      obtain ⟨hts, hti, htsa, htgu, htgr⟩ := htbl
      have hids1 : ShipIdsUnique db1 := by
        unfold ShipIdsUnique at hids ⊢
        rw [hts]
        exact hids
      have hr1 : AuthSvc.RolesCacheOK a db1 := by
        unfold AuthSvc.RolesCacheOK at hr ⊢
        intro e he
        rw [auth_roles_of_congr e.1 db1 db htgr]
        exact hr e he
      have hp1 : AuthSvc.PresenceCacheOK a db1 := by
        unfold AuthSvc.PresenceCacheOK at hp ⊢
        intro e he
        rw [presenceOf_congr e.1 db1 db hts hti]
        exact hp e he
      simp only
      cases hship : db1.get_ship g wid n with
      | none => rfl
      | some ship =>
          have hmem : ship ∈ db1.ships := by
            unfold DB.get_ship at hship
            exact List.mem_of_find?_eq_some hship
          have hsid : db1.get_ship_by_id ship.id = some ship :=
            get_ship_by_id_of_mem db1 ship hmem hids1
          have hpg : AuthSvc.presenceOf db1 ship.id
              = (ship.guild_id :: db1.get_instance_guild_ids ship.id).dedup := by
            unfold AuthSvc.presenceOf
            rw [hsid]
          cases hA : db1.is_user_authorized_for_ship ship.id u with
          | true => simp [hA]
          | false =>
              simp only [hA, Bool.false_eq_true, if_false, Bool.false_or]
              obtain ⟨a1, hpeq, hp2, hmEq1, hrEq1⟩ :=
                get_ship_presence_guilds_eq ship.id ship.guild_id now a db1
                  ship hsid rfl hp1
              rw [hpeq]
              simp only
              rw [hpg] at *
              rw [users_many_eq_any]
              cases hB : (ship.guild_id ::
                  db1.get_instance_guild_ids ship.id).dedup.any
                    (fun gid => db1.guild_auth_users.any
                      (fun p => p.1 = gid ∧ p.2 = u)) with
              | true => simp [hB]
              | false =>
                  simp only [hB, Bool.false_eq_true, if_false, Bool.false_or]
                  have hm1 : AuthSvc.MemberCacheOK oracle a1 := by
                    unfold AuthSvc.MemberCacheOK at hm ⊢
                    rw [hmEq1]
                    exact hm
                  have hr2 : AuthSvc.RolesCacheOK a1 db1 := by
                    unfold AuthSvc.RolesCacheOK at hr1 ⊢
                    rw [hrEq1]
                    exact hr1
                  exact role_loop_spec oracle u now _ db1 a1 hm1 hr2

theorem auth_resolver_matches_decision_witness :
    (AuthSvc.user_is_authorized_for_ship_any_guild noRoles 10 "Boaty" 77 0
        freshAuth grantDB).1
      = AuthSvc.auth_decision noRoles 10 "Boaty" 77 grantDB :=
  auth_resolver_matches_decision noRoles 10 "Boaty" 77 0 freshAuth grantDB
    (by intro e he; simp [freshAuth, TTLCache.empty] at he)
    (by intro e he; simp [freshAuth, TTLCache.empty] at he)
    (by intro e he; simp [freshAuth, TTLCache.empty] at he)
    (by unfold ShipIdsUnique; decide)

end ShipTracker
